import Mathlib

/-
Verification of the `scripted` bank/register/address store and its
Presenter (src/presenter.hpp, src/frontend_contract.hpp, src/scripted-gui.cpp).

The Presenter logic is embedded directly from src/presenter.hpp.  The
shared core (`scripted_core.hpp`) is not part of the repository snapshot;
the functions it provides (toBaseN, parseIntBase, openCtx, contextFileName,
resolveBankToText, ...) are modelled from the specification, each marked
`Modelled from the spec:` in its doc comment.
-/

namespace Scripted

/-! ## Characters and strings -/

/-- ASCII lower-casing of one character, mirroring `::tolower` on ASCII. -/
def asciiLower (c : Char) : Char :=
  if 'A' ≤ c ∧ c ≤ 'Z' then Char.ofNat (c.toNat + 32) else c

/-- Lower-case every character, mirroring the `std::transform` calls in
`Presenter::refreshRows` (src/presenter.hpp lines 83 and 86). -/
def lowerStr (l : List Char) : List Char := l.map asciiLower

/-- Whitespace test used when trimming identifier text. -/
def isSpaceC (c : Char) : Bool :=
  c = ' ' || c = '\t' || c = '\n' || c = '\r'

/-- Strip surrounding whitespace from a character list. -/
def trimChars (l : List Char) : List Char :=
  ((l.dropWhile isSpaceC).reverse.dropWhile isSpaceC).reverse

/-- Does `needle` occur at the head of `hay`? -/
def isPre : List Char → List Char → Bool
  | [], _ => true
  | _ :: _, [] => false
  | a :: as, b :: bs => a = b && isPre as bs

/-- Substring test with `std::string::find` semantics: the empty needle is
found in every haystack. -/
def hasSub : List Char → List Char → Bool
  | [], needle => needle.isEmpty
  | c :: t, needle => isPre needle (c :: t) || hasSub t needle

/-- Substring test on `String`. -/
def strHas (hay needle : String) : Bool := hasSub hay.data needle.data

/-! ## Ordered association maps (the shallow embedding of `std::map`) -/

/-- Lookup in an association list keyed by `Nat` (embedding of
`std::map::find`). -/
def mapFind {α : Type} (k : Nat) : List (Nat × α) → Option α
  | [] => none
  | (k2, v) :: t => if k = k2 then some v else mapFind k t

/-- Insert-or-assign keeping ascending key order (embedding of
`std::map::operator[]` followed by assignment). -/
def mapInsert {α : Type} (k : Nat) (v : α) : List (Nat × α) → List (Nat × α)
  | [] => [(k, v)]
  | (k2, v2) :: t =>
    if k < k2 then (k, v) :: (k2, v2) :: t
    else if k = k2 then (k, v) :: t
    else (k2, v2) :: mapInsert k v t

/-- Remove the entry with the given key, if present (embedding of
`std::map::erase`). -/
def mapErase {α : Type} (k : Nat) : List (Nat × α) → List (Nat × α)
  | [] => []
  | (k2, v2) :: t => if k = k2 then t else (k2, v2) :: mapErase k t

/-! ## Codec

Modelled from the spec (section 4.1): `scripted_core.hpp` is not in src/. -/

/-- Modelled from the spec: the fixed digit alphabet, 0-9 then lower-case
letters; digit `d` maps to its character. -/
def digitChar (d : Nat) : Char :=
  if d < 10 then Char.ofNat (48 + d) else Char.ofNat (87 + d)

/-- Modelled from the spec: the value of one character of the digit
alphabet, `none` for a character outside the alphabet. -/
def digitVal (c : Char) : Option Nat :=
  if '0' ≤ c ∧ c ≤ '9' then some (c.toNat - 48)
  else if 'a' ≤ c ∧ c ≤ 'z' then some (c.toNat - 87)
  else none

/-- Base-`base` digits of `v`, least significant first, with explicit fuel
so that the definition is structural and kernel-reducible. -/
def toDigitsRev (base : Nat) : Nat → Nat → List Nat
  | 0, _ => []
  | fuel + 1, v => if v = 0 then [] else v % base :: toDigitsRev base fuel (v / base)

/-- Base-`base` digits of `v`, least significant first (`v` itself is
enough fuel once `2 ≤ base`). -/
def natDigitsRev (base v : Nat) : List Nat := toDigitsRev base v v

/-- Number of digits in the natural (unpadded) rendering of `v`. -/
def digitCount (base v : Nat) : Nat := max 1 (natDigitsRev base v).length

/-- Digit characters of `v`, most significant first, no padding. -/
def rawDigits (base v : Nat) : List Char :=
  (natDigitsRev base v).reverse.map digitChar

/-- Unpadded rendering of `v`: its digit characters, or `"0"` for zero. -/
def sigChars (base v : Nat) : List Char :=
  if rawDigits base v = [] then ['0'] else rawDigits base v

/-- Modelled from the spec: `toBaseN` (the Codec `encode`) renders the
non-negative integer in the given base with the fixed alphabet, left-padded
with `0` to `width` characters, never truncating. -/
def toBaseN (v base width : Nat) : String :=
  String.mk (List.replicate (width - (sigChars base v).length) '0' ++ sigChars base v)

/-- One pass of positional accumulation over digit characters. -/
def parseLoop (base : Nat) (acc : Nat) : List Char → Option Nat
  | [] => some acc
  | c :: t =>
    match digitVal c with
    | none => none
    | some d => if d < base then parseLoop base (acc * base + d) t else none

/-- Modelled from the spec: `parseIntBase` (the Codec `decode`) trims
surrounding whitespace and fails on an empty result or on any character
outside the base-`base` alphabet. -/
def parseIntBase (base : Nat) (s : String) : Option Nat :=
  let t := trimChars s.data
  if t = [] then none else parseLoop base 0 t

/-- Value of a digit list read least-significant-first. -/
def ofRevD (base : Nat) : List Nat → Nat
  | [] => 0
  | d :: t => d + base * ofRevD base t

/-! ## Data model (scripted_core / frontend_contract) -/

/-- A row shown by the view (src/frontend_contract.hpp line 13). -/
structure Row where
  reg : Nat
  addr : Nat
  val : String
deriving DecidableEq

/-- Addresses of one register: an ordered map from address id to value. -/
abbrev RegMap : Type := List (Nat × String)

/-- Modelled from the spec (section 3): a Bank has a title and an ordered
map of registers, each an ordered map of addresses to string values
(the `Bank` type of the missing scripted_core.hpp, used as `b.title` and
`b.regs` throughout src/presenter.hpp). -/
structure Bank where
  title : String
  regs : List (Nat × RegMap)
deriving DecidableEq

/-- Default-constructed Bank, produced by `std::map::operator[]` misses. -/
def dfltBank : Bank := { title := "", regs := [] }

/-- Modelled from the spec (section 3): the Workspace is an ordered map of
banks (used as `ws.banks` throughout src/presenter.hpp). -/
structure Workspace where
  banks : List (Nat × Bank)
deriving DecidableEq

/-- Modelled from the spec (section 3): the session Config; `pfx` is the
filename prefix character. -/
structure Config where
  pfx : Char
  base : Nat
  widthBank : Nat
  widthReg : Nat
  widthAddr : Nat
  root : String
deriving DecidableEq

/-- The Presenter state: Config, Workspace and session state
(src/presenter.hpp lines 25-29 and 42). -/
structure Presenter where
  cfg : Config
  ws : Workspace
  current : Option Nat
  dirty : Bool
  busy : Bool
  filter : String
deriving DecidableEq

/-- Outbound notifications of the IView interface plus the two internal
events of a background dispatch: spawning a worker thread and writing an
output file (src/frontend_contract.hpp lines 27-35). -/
inductive Eff where
  | status (s : String)
  | rows (r : List Row)
  | showCurrent (c : Option Nat)
  | bankList (l : List (Nat × String))
  | setBusy (b : Bool)
  | spawn (id : Nat)
  | fileWrite (path content : String)
deriving DecidableEq

/-- `std::map::operator[]` on `ws.banks`: default-inserts a missing key. -/
def bankTouch (banks : List (Nat × Bank)) (id : Nat) : List (Nat × Bank) :=
  match mapFind id banks with
  | some _ => banks
  | none => mapInsert id dfltBank banks

/-! ## Rows and filtering (src/presenter.hpp lines 75-99) -/

/-- All rows of a bank in ascending (register, address) order
(the double loop of `Presenter::refreshRows`, lines 78-81). -/
def allRows (b : Bank) : List Row :=
  (b.regs.map (fun p => p.2.map (fun q => Row.mk p.1 q.1 q.2))).flatten

/-- The `contains` predicate of `Presenter::refreshRows` (lines 85-92):
case-insensitive substring match of the filter against the encoded
register id, the encoded address id, or the raw value. -/
def rowMatches (cfg : Config) (f : String) (r : Row) : Bool :=
  hasSub (lowerStr (toBaseN r.reg cfg.base cfg.widthReg).data) (lowerStr f.data) ||
  hasSub (lowerStr (toBaseN r.addr cfg.base cfg.widthAddr).data) (lowerStr f.data) ||
  hasSub (lowerStr r.val.data) (lowerStr f.data)

/-- The row list pushed by `Presenter::refreshRows` (lines 75-97): all rows
of the current bank, filtered when the filter text is non-empty. -/
def visibleRows (s : Presenter) : List Row :=
  match s.current with
  | none => []
  | some cid =>
    let b := (mapFind cid s.ws.banks).getD dfltBank
    let rows := allRows b
    if s.filter = "" then rows else rows.filter (rowMatches s.cfg s.filter)

/-! ## Presenter operations (src/presenter.hpp) -/

/-- `Presenter::insert` (lines 101-106). -/
def insert (s : Presenter) (reg addr : Nat) (val : String) : Presenter × List Eff :=
  match s.current with
  | none => (s, [Eff.status "No current context"])
  | some cid =>
    let b := (mapFind cid s.ws.banks).getD dfltBank
    let m := (mapFind reg b.regs).getD []
    let b2 := { b with regs := mapInsert reg (mapInsert addr val m) b.regs }
    let s2 := { s with ws := ⟨mapInsert cid b2 s.ws.banks⟩, dirty := true }
    (s2, [Eff.rows (visibleRows s2), Eff.showCurrent s2.current,
          Eff.status ("Updated " ++ toBaseN reg s.cfg.base s.cfg.widthReg ++ "."
            ++ toBaseN addr s.cfg.base s.cfg.widthAddr)])

/-- `Presenter::erase` (lines 108-115): when the register is missing or the
address is not present, nothing happens and nothing is notified. -/
def erase (s : Presenter) (reg addr : Nat) : Presenter × List Eff :=
  match s.current with
  | none => (s, [Eff.status "No current context"])
  | some cid =>
    let b := (mapFind cid s.ws.banks).getD dfltBank
    let banks0 := bankTouch s.ws.banks cid
    match mapFind reg b.regs with
    | none => ({ s with ws := ⟨banks0⟩ }, [])
    | some m =>
      if (mapFind addr m).isSome then
        let b2 := { b with regs := mapInsert reg (mapErase addr m) b.regs }
        let s2 := { s with ws := ⟨mapInsert cid b2 banks0⟩, dirty := true }
        (s2, [Eff.rows (visibleRows s2), Eff.showCurrent s2.current, Eff.status "Deleted."])
      else ({ s with ws := ⟨banks0⟩ }, [])

/-- Modelled from the spec (sections 4.2 and 6): the bank file path
`<root>/<prefix><encode(bankId, base, widthBank)>.txt` (`contextFileName`
of the missing scripted_core.hpp). -/
def contextFileName (cfg : Config) (id : Nat) : String :=
  cfg.root ++ "/" ++ String.mk [cfg.pfx] ++ toBaseN id cfg.base cfg.widthBank ++ ".txt"

/-- `Presenter::save` (lines 117-127).  The on-disk write performed by
`saveContextFile` is external I/O; per spec section 4.2 it either succeeds
or reports an IOError, and it is modelled here as always succeeding. -/
def save (s : Presenter) : Presenter × List Eff :=
  match s.current with
  | none => (s, [Eff.status "No current context"])
  | some cid =>
    let banks0 := bankTouch s.ws.banks cid
    ({ s with ws := ⟨banks0⟩, dirty := false },
     [Eff.status ("Saved " ++ contextFileName s.cfg cid)])

/-- The `onFilter` wiring (line 39): store the filter, refresh rows. -/
def setFilter (s : Presenter) (f : String) : Presenter × List Eff :=
  let s2 := { s with filter := f }
  (s2, [Eff.rows (visibleRows s2), Eff.showCurrent s2.current])

/-! ## Opening and switching (src/presenter.hpp lines 59-73) -/

/-- Strip a trailing `.txt` when the name is longer than four characters
(line 66). -/
def stripTxt (l : List Char) : List Char :=
  if 4 < l.length ∧ l.drop (l.length - 4) = ['.', 't', 'x', 't'] then
    l.take (l.length - 4)
  else l

/-- Strip the leading prefix character when present (line 67). -/
def normToken (cfg : Config) (name : String) : List Char :=
  match stripTxt name.data with
  | [] => []
  | c :: rest => if c = cfg.pfx then rest else c :: rest

/-- Modelled from the spec (section 4.2): `openCtx` normalizes the
argument, decodes the remaining token to a bank id and fails only if the
token cannot be parsed; an id already in the workspace is a no-op success,
otherwise the bank is loaded from disk or created empty (open-or-create).
Disk reads are external I/O, modelled as a directory with no files, so a
miss always creates an empty bank with a default title.  Status texts are
representative placeholders for the human-readable messages. -/
def openCtx (cfg : Config) (ws : Workspace) (nameOrStem : String) :
    Except String (Workspace × String) :=
  match parseIntBase cfg.base (String.mk (normToken cfg nameOrStem)) with
  | none => Except.error ("Bad context id: " ++ nameOrStem)
  | some id =>
    match mapFind id ws.banks with
    | some _ => Except.ok (ws, "Context exists.")
    | none => Except.ok (⟨mapInsert id { title := "untitled", regs := [] } ws.banks⟩,
        "Created new context.")

/-- `Presenter::openOrSwitch` (lines 59-73): delegate to `openCtx`, then
re-parse the normalized token, set `current`, clear `dirty`, push the bank
list and rows, show the status. -/
def openOrSwitch (s : Presenter) (nameOrStem : String) : Presenter × List Eff :=
  match openCtx s.cfg s.ws nameOrStem with
  | Except.error st => (s, [Eff.status st])
  | Except.ok (ws2, st) =>
    let id := (parseIntBase s.cfg.base (String.mk (normToken s.cfg nameOrStem))).getD 0
    let s2 := { s with ws := ws2, current := some id, dirty := false }
    (s2, [Eff.bankList (ws2.banks.map (fun p => (p.1, p.2.title))),
          Eff.showCurrent (some id),
          Eff.rows (visibleRows s2), Eff.showCurrent (some id),
          Eff.status st])

/-! ## Background jobs (src/presenter.hpp lines 129-169) -/

/-- `Presenter::resolveAsync` (lines 129-148), up to the point where the
worker thread is detached: reject without a current bank, reject with
"Busy..." when `busy.exchange(true)` returns true, otherwise mark busy and
spawn a worker that captures `this` and the current bank id. -/
def resolveAsync (s : Presenter) : Presenter × List Eff :=
  match s.current with
  | none => (s, [Eff.status "No current context"])
  | some id =>
    if s.busy then (s, [Eff.status "Busy..."])
    else ({ s with busy := true }, [Eff.setBusy true, Eff.spawn id])

/-- `Presenter::exportAsync` (lines 150-169), dispatch part, identical
single-flight structure. -/
def exportAsync (s : Presenter) : Presenter × List Eff :=
  match s.current with
  | none => (s, [Eff.status "No current context"])
  | some id =>
    if s.busy then (s, [Eff.status "Busy..."])
    else ({ s with busy := true }, [Eff.setBusy true, Eff.spawn id])

/-! ## Resolver (Modelled from the spec, section 4.3) -/

/-- Split a character list on `.` separators. -/
def splitDot : List Char → List (List Char)
  | [] => [[]]
  | c :: t =>
    if c = '.' then [] :: splitDot t
    else
      match splitDot t with
      | [] => [[c]]
      | g :: gs => (c :: g) :: gs

/-- Parse a non-empty decimal token. -/
def parseDec (l : List Char) : Option Nat :=
  if l = [] then none else parseLoop 10 0 l

/-- Modelled from the spec: the embedded-reference syntax inside a value is
external to the spec (treated there as opaque); it is modelled here as an
entire value of the form `@b.r.a` with decimal ids naming bank `b`,
register `r`, address `a`.  Any other value is plain text. -/
def parseRef (v : String) : Option (Nat × Nat × Nat) :=
  match v.data with
  | '@' :: rest =>
    match (splitDot rest).map parseDec with
    | [some b, some r, some a] => some (b, r, a)
    | _ => none
  | _ => none

/-- Look a reference up against the full Workspace. -/
def lookupRef (ws : Workspace) (b r a : Nat) : Option String :=
  match mapFind b ws.banks with
  | none => none
  | some bank =>
    match mapFind r bank.regs with
    | none => none
    | some m => mapFind a m

/-- Modelled from the spec: substitute one value, resolving an embedded
reference against the full Workspace, failing on an unresolved one with an
error that identifies the offending reference. -/
def resolveVal (ws : Workspace) (v : String) : Except String String :=
  match parseRef v with
  | none => Except.ok v
  | some (b, r, a) =>
    match lookupRef ws b r a with
    | some v2 => Except.ok v2
    | none => Except.error ("Unresolved reference " ++ v)

/-- Single-pass fail-fast rendering of a row list. -/
def resolveRows (ws : Workspace) : List Row → String → Except String String
  | [], acc => Except.ok acc
  | r :: t, acc =>
    match resolveVal ws r.val with
    | Except.ok v => resolveRows ws t (acc ++ v ++ "\n")
    | Except.error e => Except.error e

/-- Modelled from the spec (section 4.3): `resolveBankToText` flattens the
named bank in ascending (register id, address id) order, resolving
references against the full Workspace, failing fast at the first broken
reference and producing no partial output on failure. -/
def resolveBankToText (cfg : Config) (ws : Workspace) (id : Nat) : Except String String :=
  match mapFind id ws.banks with
  | none => Except.error ("No such bank " ++ toBaseN id cfg.base cfg.widthBank)
  | some bank => resolveRows ws (allRows bank) ""

/-- Modelled from the spec (section 6): the resolved output path
`<root>/out/<encode(bankId)>.resolved.txt` (`outResolvedName`). -/
def outResolvedName (cfg : Config) (id : Nat) : String :=
  cfg.root ++ "/out/" ++ toBaseN id cfg.base cfg.widthBank ++ ".resolved.txt"

/-- The resolve worker body (src/presenter.hpp lines 134-141).  The thread
lambda captures only `this` and `id`; the Config and Workspace it reads
are the live presenter fields at the moment the worker runs, so `p` is the
presenter state at that moment — not a snapshot from dispatch time.  On an
exception `ok` becomes false, `path` stays empty and no file is written. -/
def runResolveWorker (p : Presenter) (id : Nat) : Bool × String × List Eff :=
  match resolveBankToText p.cfg p.ws id with
  | Except.ok txt => (true, outResolvedName p.cfg id,
      [Eff.fileWrite (outResolvedName p.cfg id) txt])
  | Except.error _ => (false, "", [])

/-- The completion callback posted to the UI thread (lines 142-146):
unconditionally clears the busy flag and shows either the produced path or
the fixed failure text. -/
def completeResolve (p : Presenter) (ok : Bool) (path : String) : Presenter × List Eff :=
  ({ p with busy := false },
   [Eff.setBusy false,
    Eff.status (if ok then "Resolved -> " ++ path else "Resolve failed.")])

/-- Worker execution followed by its posted completion, both evaluated
against the live presenter state `p` at run time. -/
def resolveWorkerRun (p : Presenter) (id : Nat) : Presenter × List Eff :=
  ((completeResolve p (runResolveWorker p id).1 (runResolveWorker p id).2.1).1,
   (runResolveWorker p id).2.2 ++
     (completeResolve p (runResolveWorker p id).1 (runResolveWorker p id).2.1).2)

/-- The bank a running worker observes: looked up in the live Workspace
through the captured `this` pointer (src/presenter.hpp line 137 reads `ws`
inside the thread lambda of line 134). -/
def workerBankView (p : Presenter) (id : Nat) : Option Bank :=
  mapFind id p.ws.banks

/-! ## Effect counting and claim-statement helpers -/

/-- Is this effect a worker spawn? -/
def isSpawn : Eff → Bool
  | Eff.spawn _ => true
  | _ => false

/-- Is this effect a status notification with the given text? -/
def isStatus (t : String) : Eff → Bool
  | Eff.status s => s = t
  | _ => false

/-- Is this effect any status notification? -/
def isAnyStatus : Eff → Bool
  | Eff.status _ => true
  | _ => false

/-- Count the effects satisfying a predicate. -/
def countEff (p : Eff → Bool) (l : List Eff) : Nat := (l.filter p).length

/-- The address map of register `reg` of the currently selected bank. -/
def regAddrsAt (s : Presenter) (reg : Nat) : RegMap :=
  match s.current with
  | none => []
  | some cid => (mapFind reg ((mapFind cid s.ws.banks).getD dfltBank).regs).getD []

/-- The register map of the currently selected bank. -/
def regsAt (s : Presenter) : List (Nat × RegMap) :=
  match s.current with
  | none => []
  | some cid => ((mapFind cid s.ws.banks).getD dfltBank).regs

/-! ## Concrete states for witnesses and counterexamples -/

/-- A concrete configuration: base 16, widths 5/2/2, prefix `x`. -/
def cfg16 : Config :=
  { pfx := 'x', base := 16, widthBank := 5, widthReg := 2, widthAddr := 2, root := "ctx" }

/-- A concrete bank holding one row (1, 10, "hello"). -/
def bank1 : Bank := { title := "b1", regs := [(1, [(10, "hello")])] }

/-- Idle presenter with bank 1 selected. -/
def sIdle : Presenter :=
  { cfg := cfg16, ws := ⟨[(1, bank1)]⟩, current := some 1,
    dirty := false, busy := false, filter := "" }

/-- The same presenter while a job is running. -/
def sBusy : Presenter := { sIdle with busy := true }

/-- The same presenter with no bank selected. -/
def sNoCur : Presenter := { sIdle with current := none }

/-- C2 scenario, dispatch-time state: bank 1 maps (1,1) to "a". -/
def c2s0 : Presenter :=
  { cfg := cfg16, ws := ⟨[(1, { title := "t", regs := [(1, [(1, "a")])] })]⟩,
    current := some 1, dirty := false, busy := false, filter := "" }

/-- C2 scenario after the resolve dispatch. -/
def c2s1 : Presenter := (resolveAsync c2s0).1

/-- C2 scenario after the control flow overwrites (1,1) with "b" while the
job is still running. -/
def c2s2 : Presenter := (insert c2s1 1 1 "b").1

/-- C3 scenario: the selected bank holds one unresolved reference to the
absent bank 2. -/
def c3s0 : Presenter :=
  { cfg := cfg16, ws := ⟨[(1, { title := "r", regs := [(1, [(1, "@2.1.1")])] })]⟩,
    current := some 1, dirty := false, busy := false, filter := "" }

/-- C4 scenario: two loaded banks, bank 1 selected, unsaved edits. -/
def c4s0 : Presenter :=
  { cfg := cfg16,
    ws := ⟨[(1, bank1), (2, { title := "b2", regs := [] })]⟩,
    current := some 1, dirty := true, busy := false, filter := "" }

/-- C5 scenario: the selected bank already holds the pair (1, 2). -/
def c5s0 : Presenter :=
  { cfg := cfg16, ws := ⟨[(1, { title := "c", regs := [(1, [(2, "old")])] })]⟩,
    current := some 1, dirty := false, busy := false, filter := "" }

/-! ## Codec lemmas -/

theorem digitVal_digitChar : ∀ d < 36, digitVal (digitChar d) = some d := by decide

theorem isSpaceC_digitChar : ∀ d < 36, isSpaceC (digitChar d) = false := by decide

theorem toDigitsRev_sound (base : Nat) (hb : 1 < base) :
    ∀ fuel v, v ≤ fuel → ofRevD base (toDigitsRev base fuel v) = v := by
  intro fuel
  induction fuel with
  | zero =>
    intro v hv
    interval_cases v
    simp [toDigitsRev, ofRevD]
  | succ f ih =>
    intro v hv
    by_cases h0 : v = 0
    · simp [toDigitsRev, h0, ofRevD]
    · have hpos : 0 < v := Nat.pos_of_ne_zero h0
      have hlt : v / base < v := Nat.div_lt_self hpos hb
      have hle : v / base ≤ f := by omega
      simp only [toDigitsRev, h0, if_false, ofRevD, ih (v / base) hle]
      exact Nat.mod_add_div v base

theorem toDigitsRev_lt (base : Nat) (hb : 0 < base) :
    ∀ fuel v d, d ∈ toDigitsRev base fuel v → d < base := by
  intro fuel
  induction fuel with
  | zero => intro v d hd; simp [toDigitsRev] at hd
  | succ f ih =>
    intro v d hd
    by_cases h0 : v = 0
    · simp [toDigitsRev, h0] at hd
    · simp only [toDigitsRev, h0, if_false, List.mem_cons] at hd
      rcases hd with h | h
      · subst h; exact Nat.mod_lt v hb
      · exact ih (v / base) d h

theorem parseLoop_append (base : Nat) :
    ∀ l1 l2 acc, parseLoop base acc (l1 ++ l2) =
      (parseLoop base acc l1).bind (fun a => parseLoop base a l2) := by
  intro l1
  induction l1 with
  | nil => intro l2 acc; simp [parseLoop]
  | cons c t ih =>
    intro l2 acc
    simp only [List.cons_append, parseLoop]
    cases digitVal c with
    | none => simp
    | some d =>
      by_cases hd : d < base
      · simp [hd, ih]
      · simp [hd]

theorem parseLoop_zeros (base : Nat) (hb : 0 < base) :
    ∀ k, parseLoop base 0 (List.replicate k '0') = some 0 := by
  intro k
  induction k with
  | zero => simp [parseLoop]
  | succ n ih =>
    have h0 : digitVal '0' = some 0 := by decide
    simp [List.replicate, parseLoop, h0, hb, ih]

theorem parseLoop_map (base : Nat) (h36 : base ≤ 36) :
    ∀ (L : List Nat) (acc : Nat), (∀ d ∈ L, d < base) →
      parseLoop base acc (L.map digitChar) =
        some (L.foldl (fun a d => a * base + d) acc) := by
  intro L
  induction L with
  | nil => intro acc _; simp [parseLoop]
  | cons d t ih =>
    intro acc hall
    have hd : d < base := hall d (List.mem_cons_self d t)
    have hv : digitVal (digitChar d) = some d :=
      digitVal_digitChar d (lt_of_lt_of_le hd h36)
    simp only [List.map_cons, parseLoop, hv, hd, if_true, List.foldl_cons]
    exact ih (acc * base + d) (fun x hx => hall x (List.mem_cons_of_mem d hx))

theorem foldl_reverse_ofRevD (base : Nat) :
    ∀ (L : List Nat) (acc : Nat), List.foldl (fun a d => a * base + d) acc L.reverse =
      acc * base ^ L.length + ofRevD base L := by
  intro L
  induction L with
  | nil => intro acc; simp [ofRevD]
  | cons d t ih =>
    intro acc
    simp only [List.reverse_cons, List.foldl_append, ih, List.foldl_cons,
      List.foldl_nil, ofRevD, List.length_cons]
    ring

theorem dropWhile_eq_self_of_none (p : Char → Bool) :
    ∀ l : List Char, (∀ c ∈ l, p c = false) → l.dropWhile p = l := by
  intro l hl
  cases l with
  | nil => rfl
  | cons c t =>
    have := hl c (List.mem_cons_self c t)
    simp [List.dropWhile, this]

theorem trimChars_eq_self (l : List Char) (h : ∀ c ∈ l, isSpaceC c = false) :
    trimChars l = l := by
  unfold trimChars
  rw [dropWhile_eq_self_of_none isSpaceC l h]
  rw [dropWhile_eq_self_of_none isSpaceC l.reverse
    (fun c hc => h c (List.mem_reverse.mp hc))]
  exact List.reverse_reverse l

theorem toBaseN_data (v base width : Nat) :
    (toBaseN v base width).data =
      List.replicate (width - (sigChars base v).length) '0' ++ sigChars base v := rfl

theorem sigChars_ne_nil (base v : Nat) : sigChars base v ≠ [] := by
  unfold sigChars
  by_cases he : rawDigits base v = []
  · rw [if_pos he]; exact List.cons_ne_nil '0' []
  · rw [if_neg he]; exact he

/-- C9 helper: every character of a `toBaseN` rendering is a non-space
digit character. -/
theorem toBaseN_chars (v base width : Nat) (h2 : 2 ≤ base) (h36 : base ≤ 36) :
    ∀ c ∈ (toBaseN v base width).data, isSpaceC c = false := by
  intro c hc
  rw [toBaseN_data, List.mem_append] at hc
  have hzero : isSpaceC '0' = false := by decide
  rcases hc with hc | hc
  · rw [List.eq_of_mem_replicate hc]; exact hzero
  · unfold sigChars at hc
    by_cases he : rawDigits base v = []
    · rw [if_pos he] at hc
      simp at hc
      rw [hc]; exact hzero
    · rw [if_neg he] at hc
      rcases List.mem_map.mp hc with ⟨d, hd, hdc⟩
      have hdlt : d < base :=
        toDigitsRev_lt base (by omega) v v d (List.mem_reverse.mp hd)
      rw [← hdc]
      exact isSpaceC_digitChar d (lt_of_lt_of_le hdlt h36)

/-- C9 core: parsing the padded rendering recovers the value. -/
theorem parseLoop_toBaseN (v base width : Nat) (h2 : 2 ≤ base) (h36 : base ≤ 36) :
    parseLoop base 0 (toBaseN v base width).data = some v := by
  have hbpos : 0 < base := by omega
  have hb1 : 1 < base := by omega
  rw [toBaseN_data, parseLoop_append, parseLoop_zeros base hbpos]
  show parseLoop base 0 (sigChars base v) = some v
  by_cases h0 : v = 0
  · subst h0
    have hsig : sigChars base 0 = ['0'] := rfl
    have hdv : digitVal '0' = some 0 := by decide
    rw [hsig]
    simp [parseLoop, hdv, hbpos]
  · have hne : rawDigits base v ≠ [] := by
      cases hv : v with
      | zero => exact absurd hv h0
      | succ n =>
        unfold rawDigits natDigitsRev
        simp [toDigitsRev]
    rw [show sigChars base v = rawDigits base v from if_neg hne]
    unfold rawDigits
    rw [parseLoop_map base h36 (natDigitsRev base v).reverse 0
      (fun d hd => toDigitsRev_lt base hbpos v v d (List.mem_reverse.mp hd))]
    rw [foldl_reverse_ofRevD]
    unfold natDigitsRev
    rw [toDigitsRev_sound base hb1 v v (Nat.le_refl v)]
    simp

/-- C9: for every base in [2, 36], every width at least the natural digit
count of the value, and every non-negative value `v < base ^ width`,
decoding the encoding of `v` returns `v`. -/
theorem c9_codec_round_trip (base width v : Nat) (h2 : 2 ≤ base) (h36 : base ≤ 36)
    (_hw : digitCount base v ≤ width) (_hv : v < base ^ width) :
    parseIntBase base (toBaseN v base width) = some v := by
  unfold parseIntBase
  rw [trimChars_eq_self (toBaseN v base width).data (toBaseN_chars v base width h2 h36)]
  have hne : (toBaseN v base width).data ≠ [] := by
    rw [toBaseN_data]
    intro h
    rw [List.append_eq_nil] at h
    exact sigChars_ne_nil base v h.2
  rw [if_neg hne]
  exact parseLoop_toBaseN v base width h2 h36

/-- C9 witness: a concrete instance of the round trip. -/
theorem c9_codec_round_trip_check :
    parseIntBase 16 (toBaseN 255 16 4) = some 255 :=
  c9_codec_round_trip 16 4 255 (by decide) (by decide) (by decide) (by decide)

/-! ## Map and substring lemmas -/

theorem mapFind_mapInsert_self {α : Type} (k : Nat) (v : α) (m : List (Nat × α)) :
    mapFind k (mapInsert k v m) = some v := by
  induction m with
  | nil => simp [mapInsert, mapFind]
  | cons p t ih =>
    obtain ⟨k2, v2⟩ := p
    unfold mapInsert
    by_cases h1 : k < k2
    · simp [h1, mapFind]
    · by_cases h2 : k = k2
      · simp [h1, h2, mapFind]
      · simp only [h1, h2, if_false, mapFind]
        exact ih

theorem mapFind_mapInsert_ne {α : Type} (k j : Nat) (v : α) (m : List (Nat × α))
    (h : j ≠ k) : mapFind j (mapInsert k v m) = mapFind j m := by
  induction m with
  | nil => simp [mapInsert, mapFind, h]
  | cons p t ih =>
    obtain ⟨k2, v2⟩ := p
    unfold mapInsert
    by_cases h1 : k < k2
    · simp [h1, mapFind, h]
    · by_cases h2 : k = k2
      · subst h2
        simp [h1, mapFind, h]
      · simp only [h1, h2, if_false, mapFind]
        by_cases h3 : j = k2
        · simp [h3]
        · simp [h3, ih]

theorem mapErase_mapInsert_of_none {α : Type} (k : Nat) (v : α) (m : List (Nat × α))
    (h : mapFind k m = none) : mapErase k (mapInsert k v m) = m := by
  induction m with
  | nil => simp [mapInsert, mapErase]
  | cons p t ih =>
    obtain ⟨k2, v2⟩ := p
    unfold mapFind at h
    by_cases h2 : k = k2
    · simp [h2] at h
    · rw [if_neg h2] at h
      unfold mapInsert
      by_cases h1 : k < k2
      · simp [h1, mapErase]
      · simp only [h1, h2, if_false]
        unfold mapErase
        rw [if_neg h2]
        rw [ih h]

theorem mapInsert_mapInsert_self {α : Type} (k : Nat) (a b : α) (m : List (Nat × α)) :
    mapInsert k a (mapInsert k b m) = mapInsert k a m := by
  induction m with
  | nil => simp [mapInsert]
  | cons p t ih =>
    obtain ⟨k2, v2⟩ := p
    unfold mapInsert
    by_cases h1 : k < k2
    · simp [mapInsert, h1]
    · by_cases h2 : k = k2
      · simp [mapInsert, h1, h2]
      · simp only [h1, h2, if_false, mapInsert]
        simp [h1, h2, ih]

theorem isPre_self : ∀ l : List Char, isPre l l = true := by
  intro l
  induction l with
  | nil => rfl
  | cons c t ih => simp [isPre, ih]

theorem hasSub_self : ∀ l : List Char, hasSub l l = true := by
  intro l
  cases l with
  | nil => rfl
  | cons c t => simp [hasSub, isPre_self]

theorem hasSub_nil_needle : ∀ l : List Char, hasSub l [] = true := by
  intro l
  cases l with
  | nil => rfl
  | cons c t => simp [hasSub, isPre]

/-! ## C6: operations without a current bank -/

/-- C6: with `current` unset, insert, delete, save, resolve and export are
all rejected synchronously with the fixed status "No current context",
spawn no worker, and leave the whole state unchanged. -/
theorem c6_no_current_context (s : Presenter) (reg addr : Nat) (v : String)
    (h : s.current = none) :
    Scripted.insert s reg addr v = (s, [Eff.status "No current context"]) ∧
    Scripted.erase s reg addr = (s, [Eff.status "No current context"]) ∧
    save s = (s, [Eff.status "No current context"]) ∧
    resolveAsync s = (s, [Eff.status "No current context"]) ∧
    exportAsync s = (s, [Eff.status "No current context"]) := by
  refine ⟨?_, ?_, ?_, ?_, ?_⟩ <;>
    simp [Scripted.insert, Scripted.erase, save, resolveAsync, exportAsync, h]

/-- C6 witness: the rejection at a concrete unselected state. -/
theorem c6_no_current_context_check :
    Scripted.insert sNoCur 1 2 "x" = (sNoCur, [Eff.status "No current context"]) ∧
    Scripted.erase sNoCur 1 2 = (sNoCur, [Eff.status "No current context"]) ∧
    save sNoCur = (sNoCur, [Eff.status "No current context"]) ∧
    resolveAsync sNoCur = (sNoCur, [Eff.status "No current context"]) ∧
    exportAsync sNoCur = (sNoCur, [Eff.status "No current context"]) :=
  c6_no_current_context sNoCur 1 2 "x" rfl

/-! ## C8: deleting an absent pair -/

/-- C8: for a selected bank, deleting a (reg, addr) pair that is not in the
bank is a no-op: the state (bank contents and dirty flag included) is
unchanged and no notification at all is emitted. -/
theorem c8_erase_absent_noop (s : Presenter) (cid reg addr : Nat) (b : Bank)
    (hc : s.current = some cid) (hb : mapFind cid s.ws.banks = some b)
    (hm : mapFind addr ((mapFind reg b.regs).getD []) = none) :
    Scripted.erase s reg addr = (s, []) := by
  obtain ⟨cfg, ⟨banks⟩, cur, dirty, busy, filt⟩ := s
  dsimp only at hc hb hm ⊢
  subst hc
  simp only [Scripted.erase, bankTouch, hb, Option.getD_some]
  cases hr : mapFind reg b.regs with
  | none => rfl
  | some m =>
    rw [hr, Option.getD_some] at hm
    simp [hm]

/-- C8 witness: deleting from an absent register of a concrete bank. -/
theorem c8_erase_absent_noop_check :
    Scripted.erase sIdle 2 10 = (sIdle, []) :=
  c8_erase_absent_noop sIdle 1 2 10 bank1 rfl rfl (by decide)

/-! ## C5 and C10: insert followed by delete -/

/-- Composite shape of an insert followed by a delete of the same
(reg, addr) pair when the pair was absent: the pair disappears again, the
register entry stays, and the dirty flag is set. -/
theorem insert_then_erase (cfg : Config) (banks : List (Nat × Bank)) (cid reg addr : Nat)
    (b : Bank) (v : String) (dirty busy : Bool) (filt : String)
    (hb : mapFind cid banks = some b)
    (hnew : mapFind addr ((mapFind reg b.regs).getD []) = none) :
    (Scripted.erase
        (Scripted.insert ⟨cfg, ⟨banks⟩, some cid, dirty, busy, filt⟩ reg addr v).1
        reg addr).1
      = ⟨cfg, ⟨mapInsert cid
            { title := b.title, regs := mapInsert reg ((mapFind reg b.regs).getD []) b.regs }
            banks⟩,
          some cid, true, busy, filt⟩ := by
  simp only [Scripted.insert, hb, Option.getD_some]
  simp only [Scripted.erase, bankTouch, mapFind_mapInsert_self, Option.getD_some,
    Option.isSome_some, if_true]
  rw [mapErase_mapInsert_of_none addr v ((mapFind reg b.regs).getD []) hnew]
  rw [mapInsert_mapInsert_self, mapInsert_mapInsert_self]

/-- C5 counterexample: when the (reg, addr) pair already exists, insert
followed by delete does not restore the register's address set — the
pre-existing entry (2, "old") is gone. -/
theorem c5_preexisting_pair_cex :
    regAddrsAt c5s0 1 = [(2, "old")] ∧
    regAddrsAt ((Scripted.erase (Scripted.insert c5s0 1 2 "new").1 1 2).1) 1 = [] ∧
    (Scripted.insert c5s0 1 2 "new").1.dirty = true ∧
    (Scripted.erase (Scripted.insert c5s0 1 2 "new").1 1 2).1.dirty = true := by
  decide

/-- C5 (amended): provided the (reg, addr) pair is not already present in
the selected bank, insert(reg, addr, value) then delete(reg, addr)
restores the register's address set to its pre-insert contents, and dirty
is true after the insert and still true after the delete. -/
theorem c5_amended (s : Presenter) (cid reg addr : Nat) (b : Bank) (v : String)
    (hc : s.current = some cid) (hb : mapFind cid s.ws.banks = some b)
    (hnew : mapFind addr ((mapFind reg b.regs).getD []) = none) :
    regAddrsAt ((Scripted.erase (Scripted.insert s reg addr v).1 reg addr).1) reg
      = (mapFind reg b.regs).getD [] ∧
    (Scripted.insert s reg addr v).1.dirty = true ∧
    (Scripted.erase (Scripted.insert s reg addr v).1 reg addr).1.dirty = true := by
  obtain ⟨cfg, ⟨banks⟩, cur, dirty, busy, filt⟩ := s
  dsimp only at hc hb hnew ⊢
  subst hc
  have key := insert_then_erase cfg banks cid reg addr b v dirty busy filt hb hnew
  refine ⟨?_, rfl, ?_⟩
  · rw [key]
    simp [regAddrsAt, mapFind_mapInsert_self]
  · rw [key]

/-- C5 witness: the amended law at a concrete state whose selected bank
does not contain the pair (1, 11). -/
theorem c5_amended_check :
    regAddrsAt ((Scripted.erase (Scripted.insert sIdle 1 11 "v").1 1 11).1) 1
      = [(10, "hello")] ∧
    (Scripted.insert sIdle 1 11 "v").1.dirty = true ∧
    (Scripted.erase (Scripted.insert sIdle 1 11 "v").1 1 11).1.dirty = true :=
  c5_amended sIdle 1 1 11 bank1 "v" rfl rfl (by decide)

/-- C10: inserting into an absent register creates it, and deleting that
address afterwards removes only the address entry — the register remains in
the bank as an empty register, and every other register is untouched. -/
theorem c10_insert_erase_register_persists (s : Presenter) (cid reg addr : Nat)
    (b : Bank) (v : String)
    (hc : s.current = some cid) (hb : mapFind cid s.ws.banks = some b)
    (hreg : mapFind reg b.regs = none) :
    mapFind reg (regsAt ((Scripted.erase (Scripted.insert s reg addr v).1 reg addr).1))
      = some [] ∧
    ∀ r, r ≠ reg →
      mapFind r (regsAt ((Scripted.erase (Scripted.insert s reg addr v).1 reg addr).1))
        = mapFind r b.regs := by
  obtain ⟨cfg, ⟨banks⟩, cur, dirty, busy, filt⟩ := s
  dsimp only at hc hb hreg ⊢
  subst hc
  have hnew : mapFind addr ((mapFind reg b.regs).getD []) = none := by
    rw [hreg]
    rfl
  have key := insert_then_erase cfg banks cid reg addr b v dirty busy filt hb hnew
  rw [key]
  constructor
  · simp [regsAt, mapFind_mapInsert_self, hreg]
  · intro r hr
    simp only [regsAt, mapFind_mapInsert_self, Option.getD_some]
    exact mapFind_mapInsert_ne reg r _ b.regs hr

/-- C10 witness: at a concrete state, inserting (2, 7) into the absent
register 2 and deleting it again leaves register 2 present and empty while
register 1 is untouched. -/
theorem c10_insert_erase_register_persists_check :
    mapFind 2 (regsAt ((Scripted.erase (Scripted.insert sIdle 2 7 "v").1 2 7).1))
      = some [] ∧
    mapFind 1 (regsAt ((Scripted.erase (Scripted.insert sIdle 2 7 "v").1 2 7).1))
      = mapFind 1 bank1.regs :=
  ⟨(c10_insert_erase_register_persists sIdle 1 2 7 bank1 "v" rfl rfl (by decide)).1,
   (c10_insert_erase_register_persists sIdle 1 2 7 bank1 "v" rfl rfl (by decide)).2
     1 (by decide)⟩

/-! ## C7: filtering -/

theorem filter_eq_nil_of_false {α : Type} (p : α → Bool) :
    ∀ l : List α, (∀ a ∈ l, p a = false) → l.filter p = [] := by
  intro l h
  induction l with
  | nil => rfl
  | cons a t ih =>
    simp only [List.filter, h a (List.mem_cons_self a t)]
    exact ih (fun x hx => h x (List.mem_cons_of_mem a hx))

/-- C7: after setFilter, the visible row set is the case-insensitive
substring filtering of the current bank's rows; a query equal to a row's
exact encoded address keeps that row, and a query matching no field of any
row leaves the visible set empty. -/
theorem c7_filter_rows (s : Presenter) (cid : Nat) (b : Bank)
    (hc : s.current = some cid) (hb : mapFind cid s.ws.banks = some b) :
    (∀ row ∈ allRows b,
        row ∈ visibleRows ((setFilter s (toBaseN row.addr s.cfg.base s.cfg.widthAddr)).1)) ∧
    (∀ q : String, (∀ row ∈ allRows b, rowMatches s.cfg q row = false) →
        visibleRows ((setFilter s q).1) = []) := by
  obtain ⟨cfg, ⟨banks⟩, cur, dirty, busy, filt⟩ := s
  dsimp only at hc hb ⊢
  subst hc
  constructor
  · intro row hrow
    by_cases hf : toBaseN row.addr cfg.base cfg.widthAddr = ""
    · simp only [setFilter, visibleRows, hb, Option.getD_some, hf, if_pos]
      exact hrow
    · simp only [setFilter, visibleRows, hb, Option.getD_some, hf, if_false]
      rw [List.mem_filter]
      refine ⟨hrow, ?_⟩
      simp [rowMatches, hasSub_self]
  · intro q hq
    by_cases hf : q = ""
    · subst hf
      simp only [setFilter, visibleRows, hb, Option.getD_some, if_pos]
      cases hr : allRows b with
      | nil => rfl
      | cons r t =>
        exfalso
        have hfalse := hq r (by rw [hr]; exact List.mem_cons_self r t)
        have htrue : rowMatches cfg "" r = true := by
          simp [rowMatches, lowerStr, hasSub_nil_needle]
        rw [hfalse] at htrue
        exact Bool.false_ne_true htrue
    · simp only [setFilter, visibleRows, hb, Option.getD_some, hf, if_false]
      exact filter_eq_nil_of_false (rowMatches cfg q) (allRows b) hq

/-- C7 witness: the concrete row (1, 10, "hello") is kept by its own
encoded address "0a", and a query absent from every field empties the
view. -/
theorem c7_filter_rows_check :
    Row.mk 1 10 "hello" ∈ visibleRows ((setFilter sIdle (toBaseN 10 16 2)).1) ∧
    visibleRows ((setFilter sIdle "zzz").1) = [] :=
  ⟨(c7_filter_rows sIdle 1 bank1 rfl rfl).1 (Row.mk 1 10 "hello") (by decide),
   (c7_filter_rows sIdle 1 bank1 rfl rfl).2 "zzz" (by decide)⟩

/-! ## C1: single-flight law -/

/-- C1: a resolve dispatched from an idle presenter spawns exactly one
worker and marks the presenter busy; any resolve or export issued while
busy is rejected synchronously with exactly the "Busy..." status, spawns
nothing and changes nothing; two back-to-back resolves therefore produce
exactly one spawn and exactly one "Busy..." status, and the single posted
completion resets the busy flag with exactly one completion
notification. -/
theorem c1_single_flight (s t : Presenter) (id jd : Nat) (ok : Bool) (path : String)
    (hb : s.busy = false) (hc : s.current = some id)
    (ht : t.busy = true) (htc : t.current = some jd) :
    resolveAsync s = ({ s with busy := true }, [Eff.setBusy true, Eff.spawn id]) ∧
    resolveAsync t = (t, [Eff.status "Busy..."]) ∧
    exportAsync t = (t, [Eff.status "Busy..."]) ∧
    resolveAsync (resolveAsync s).1 = ((resolveAsync s).1, [Eff.status "Busy..."]) ∧
    countEff isSpawn ((resolveAsync s).2 ++ (resolveAsync (resolveAsync s).1).2) = 1 ∧
    countEff (isStatus "Busy...") ((resolveAsync s).2 ++ (resolveAsync (resolveAsync s).1).2) = 1 ∧
    (completeResolve (resolveAsync (resolveAsync s).1).1 ok path).1.busy = false ∧
    countEff isAnyStatus (completeResolve (resolveAsync (resolveAsync s).1).1 ok path).2 = 1 := by
  have h1 : resolveAsync s = ({ s with busy := true }, [Eff.setBusy true, Eff.spawn id]) := by
    simp [resolveAsync, hc, hb]
  have hbusyR : ∀ (u : Presenter) (j : Nat), u.busy = true → u.current = some j →
      resolveAsync u = (u, [Eff.status "Busy..."]) := by
    intro u j hu hcu
    simp [resolveAsync, hcu, hu]
  have hbusyE : ∀ (u : Presenter) (j : Nat), u.busy = true → u.current = some j →
      exportAsync u = (u, [Eff.status "Busy..."]) := by
    intro u j hu hcu
    simp [exportAsync, hcu, hu]
  have hs1b : (resolveAsync s).1.busy = true := by simp [h1]
  have hs1c : (resolveAsync s).1.current = some id := by simp [h1, hc]
  have h4 : resolveAsync (resolveAsync s).1 = ((resolveAsync s).1, [Eff.status "Busy..."]) :=
    hbusyR (resolveAsync s).1 id hs1b hs1c
  have e1 : (resolveAsync s).2 = [Eff.setBusy true, Eff.spawn id] := by rw [h1]
  have e2 : (resolveAsync (resolveAsync s).1).2 = [Eff.status "Busy..."] := by rw [h4]
  refine ⟨h1, hbusyR t jd ht htc, hbusyE t jd ht htc, h4, ?_, ?_, ?_, ?_⟩
  · rw [e1, e2]
    simp [countEff, isSpawn]
  · rw [e1, e2]
    simp [countEff, isStatus]
  · simp [completeResolve]
  · simp [completeResolve, countEff, isAnyStatus]

/-- C1 witness: the single-flight scenario at a concrete presenter. -/
theorem c1_single_flight_check :
    resolveAsync sIdle = ({ sIdle with busy := true }, [Eff.setBusy true, Eff.spawn 1]) ∧
    resolveAsync sBusy = (sBusy, [Eff.status "Busy..."]) ∧
    exportAsync sBusy = (sBusy, [Eff.status "Busy..."]) ∧
    resolveAsync (resolveAsync sIdle).1 = ((resolveAsync sIdle).1, [Eff.status "Busy..."]) ∧
    countEff isSpawn ((resolveAsync sIdle).2 ++ (resolveAsync (resolveAsync sIdle).1).2) = 1 ∧
    countEff (isStatus "Busy...")
      ((resolveAsync sIdle).2 ++ (resolveAsync (resolveAsync sIdle).1).2) = 1 ∧
    (completeResolve (resolveAsync (resolveAsync sIdle).1).1 true "p").1.busy = false ∧
    countEff isAnyStatus (completeResolve (resolveAsync (resolveAsync sIdle).1).1 true "p").2 = 1 :=
  c1_single_flight sIdle sBusy 1 1 true "p" rfl rfl rfl rfl

/-! ## C4: what clears the dirty flag -/

/-- C4 counterexample: switching from dirty bank 1 to the already-loaded
bank 2 succeeds and clears the dirty flag (src/presenter.hpp line 69),
refuting "switching banks never clears dirty". -/
theorem c4_switch_clears_dirty_cex :
    c4s0.dirty = true ∧
    (openOrSwitch c4s0 "x00002").1.dirty = false ∧
    (openOrSwitch c4s0 "x00002").1.current = some 2 := by
  decide

/-- C4 (amended): dirty is cleared by a successful save of the selected
bank and also by a successful openOrSwitch; no other operation — insert,
delete, filter change, resolve/export dispatch or job completion — clears
it. -/
theorem c4_amended (s : Presenter) (nameOrStem : String) (id cid reg addr : Nat)
    (v q path : String) (ok : Bool)
    (hp : parseIntBase s.cfg.base (String.mk (normToken s.cfg nameOrStem)) = some id)
    (hd : s.dirty = true) (hcur : s.current = some cid) :
    (openOrSwitch s nameOrStem).1.dirty = false ∧
    (openOrSwitch s nameOrStem).1.current = some id ∧
    (save s).1.dirty = false ∧
    (Scripted.insert s reg addr v).1.dirty = true ∧
    (Scripted.erase s reg addr).1.dirty = true ∧
    (setFilter s q).1.dirty = true ∧
    (resolveAsync s).1.dirty = true ∧
    (exportAsync s).1.dirty = true ∧
    (completeResolve s ok path).1.dirty = true := by
  obtain ⟨cfg, ⟨banks⟩, cur, dirty, busy, filt⟩ := s
  dsimp only at hp hd hcur ⊢
  subst hcur
  subst hd
  refine ⟨?_, ?_, rfl, rfl, ?_, rfl, ?_, ?_, rfl⟩
  · simp only [openOrSwitch, openCtx, hp]
    cases hfind : mapFind id banks with
    | none => rfl
    | some bk => rfl
  · simp only [openOrSwitch, openCtx, hp]
    cases hfind : mapFind id banks with
    | none => simp [hp]
    | some bk => simp [hp]
  · simp only [Scripted.erase]
    cases hr : mapFind reg ((mapFind cid banks).getD dfltBank).regs with
    | none => rfl
    | some m =>
      by_cases ha : (mapFind addr m).isSome
      · simp [ha]
      · simp [ha]
  · cases busy with
    | true => rfl
    | false => rfl
  · cases busy with
    | true => rfl
    | false => rfl

/-- C4 witness: the amended law at a concrete dirty state. -/
theorem c4_amended_check :
    (openOrSwitch c4s0 "x00002").1.dirty = false ∧
    (openOrSwitch c4s0 "x00002").1.current = some 2 ∧
    (save c4s0).1.dirty = false ∧
    (Scripted.insert c4s0 1 10 "v").1.dirty = true ∧
    (Scripted.erase c4s0 1 10).1.dirty = true ∧
    (setFilter c4s0 "q").1.dirty = true ∧
    (resolveAsync c4s0).1.dirty = true ∧
    (exportAsync c4s0).1.dirty = true ∧
    (completeResolve c4s0 true "p").1.dirty = true :=
  c4_amended c4s0 "x00002" 2 1 1 10 "v" "q" "p" true (by decide) rfl rfl

/-! ## C3: resolve failure reporting -/

/-- C3 counterexample: with an unresolved reference, the resolver's error
names the offending reference "@2.1.1", yet the worker's posted status is
the fixed text "Resolve failed." which does not contain it, and no file
write occurs (the completion is the entire effect list). -/
theorem c3_generic_status_cex :
    resolveBankToText c3s0.cfg c3s0.ws 1 = Except.error "Unresolved reference @2.1.1" ∧
    (resolveWorkerRun (resolveAsync c3s0).1 1).2 =
      [Eff.setBusy false, Eff.status "Resolve failed."] ∧
    strHas "Resolve failed." "@2.1.1" = false :=
  ⟨rfl, rfl, rfl⟩

/-- C3 (amended): when resolve fails on an unresolved cross-reference, the
background job reports failure and writes no output file, but the status
shown is the fixed text "Resolve failed." — the resolver's error naming
the first unresolved reference is discarded by the catch-all handler
(src/presenter.hpp line 141). -/
theorem c3_amended (p : Presenter) (id : Nat) (e : String)
    (he : resolveBankToText p.cfg p.ws id = Except.error e) :
    runResolveWorker p id = (false, "", []) ∧
    (resolveWorkerRun p id).1.busy = false ∧
    (resolveWorkerRun p id).2 = [Eff.setBusy false, Eff.status "Resolve failed."] := by
  have h1 : runResolveWorker p id = (false, "", []) := by
    simp [runResolveWorker, he]
  refine ⟨h1, ?_, ?_⟩
  · simp [resolveWorkerRun, completeResolve]
  · simp [resolveWorkerRun, h1, completeResolve]

/-- C3 witness: the amended behaviour at the concrete failing workspace. -/
theorem c3_amended_check :
    runResolveWorker c3s0 1 = (false, "", []) ∧
    (resolveWorkerRun c3s0 1).1.busy = false ∧
    (resolveWorkerRun c3s0 1).2 = [Eff.setBusy false, Eff.status "Resolve failed."] :=
  c3_amended c3s0 1 "Unresolved reference @2.1.1" rfl

/-! ## C2: the worker reads live state, not a snapshot -/

/-- C2: the dispatch captures only the bank id (the spawn effect), and the
worker's view of bank 1 — looked up in the live Workspace through the
captured `this` — changes from (1,1,"a") to (1,1,"b") when the control
flow overwrites the value after dispatch; the resolve output computed at
run time reflects the edit.  This contradicts the claimed dispatch-time
snapshot semantics. -/
theorem c2_live_capture :
    (resolveAsync c2s0).2 = [Eff.setBusy true, Eff.spawn 1] ∧
    workerBankView c2s0 1 = some { title := "t", regs := [(1, [(1, "a")])] } ∧
    workerBankView c2s2 1 = some { title := "t", regs := [(1, [(1, "b")])] } ∧
    resolveBankToText c2s2.cfg c2s2.ws 1 = Except.ok "b\n" ∧
    resolveBankToText c2s0.cfg c2s0.ws 1 = Except.ok "a\n" :=
  ⟨rfl, rfl, rfl, rfl, rfl⟩

end Scripted
